import Mathlib

set_option maxRecDepth 10000

/-! Verification development for the ntc neighbor-collection scripts
    (neighbor_info.py together with the switch classes in switches.py).

    The three vendor extractors and the inventory loop of neighbor_info.py
    are embedded as executable Lean functions.  Python exceptions are made
    explicit with Except, printed diagnostics are collected in lists, and
    the IOS regular expression is embedded as a deterministic matcher that
    reproduces the backtracking behaviour of Python re.findall on the
    pattern used at neighbor_info.py line 103. -/

/-- Python regex whitespace class (the characters matched by a backslash-s
    atom in a Unicode pattern): space, tab, LF, VT, FF, CR, the file and
    unit separators 0x1c-0x1f, NEL, NBSP and the Unicode space characters. -/
def pySpace (c : Char) : Bool :=
  let n := c.toNat
  n == 32 || (decide (9 ≤ n) && decide (n ≤ 13)) ||
  (decide (28 ≤ n) && decide (n ≤ 31)) ||
  n == 133 || n == 160 || n == 5760 ||
  (decide (8192 ≤ n) && decide (n ≤ 8202)) ||
  n == 8232 || n == 8233 || n == 8239 || n == 8287 || n == 12288

/-- Longest prefix of non-whitespace characters, with the rest. -/
def spanNS : List Char → List Char × List Char
  | [] => ([], [])
  | c :: rest =>
    if pySpace c then ([], c :: rest)
    else ((c :: (spanNS rest).1), (spanNS rest).2)

/-- Longest prefix of whitespace characters, with the rest. -/
def spanS : List Char → List Char × List Char
  | [] => ([], [])
  | c :: rest =>
    if pySpace c then ((c :: (spanS rest).1), (spanS rest).2)
    else ([], c :: rest)

/-- One-or-more non-whitespace characters, greedy.  Between two
    complementary character classes no backtracking can change the
    outcome, so the greedy maximal munch is exact. -/
def matchNSPlus (cs : List Char) : Option (List Char × List Char) :=
  if (spanNS cs).1 = [] then none else some (spanNS cs)

/-- One-or-more whitespace characters, greedy. -/
def matchSPlus (cs : List Char) : Option (List Char × List Char) :=
  if (spanS cs).1 = [] then none else some (spanS cs)

/-- The local-interface group of the IOS row pattern: two non-whitespace
    tokens joined by exactly one space character. -/
def matchLocal (cs : List Char) : Option (List Char × List Char) :=
  match matchNSPlus cs with
  | none => none
  | some (a, r1) =>
    match r1 with
    | ' ' :: r2 =>
      match matchNSPlus r2 with
      | none => none
      | some (b, r3) => some (a ++ ' ' :: b, r3)
    | _ => none

/-- One capability alternative of the IOS row pattern: k single
    non-whitespace characters joined by single spaces. -/
def matchCap : Nat → List Char → Option (List Char × List Char)
  | 0, _ => none
  | 1, [] => none
  | 1, c :: r => if pySpace c then none else some ([c], r)
  | _ + 2, [] => none
  | _ + 2, [_] => none
  | k + 2, c :: c2 :: r =>
    if pySpace c then none
    else if c2 = ' ' then
      match matchCap (k + 1) r with
      | some (p, rest) => some (c :: ' ' :: p, rest)
      | none => none
    else none

/-- The tail of the IOS row pattern after the capability group:
    whitespace, the platform token, whitespace, then a greedy dot-star
    (everything up to the next newline or the end of input).
    Returns (platform, port id, rest of input). -/
def matchTailIos (cs : List Char) : Option (List Char × List Char × List Char) :=
  match matchSPlus cs with
  | none => none
  | some (_, r1) =>
    match matchNSPlus r1 with
    | none => none
    | some (plat, r2) =>
      match matchSPlus r2 with
      | none => none
      | some (_, r3) =>
        some (plat, r3.takeWhile (fun c => c != '\n'), r3.dropWhile (fun c => c != '\n'))

/-- The tuple of the eleven capture groups of the IOS row pattern, in the
    order Python re.findall returns them.  Non-participating alternatives
    capture the empty string. -/
structure RowMatch where
  g0 : List Char
  g1 : List Char
  g2 : List Char
  g3 : List Char
  g4 : List Char
  g5 : List Char
  g6 : List Char
  g7 : List Char
  g8 : List Char
  g9 : List Char
  g10 : List Char
  deriving DecidableEq, Repr

/-- Assemble the capture tuple once an alternative with k tokens has been
    chosen for the capability group. -/
def buildRow (g0 g1 g2 cap : List Char) (k : Nat) (plat port : List Char) : RowMatch where
  g0 := g0
  g1 := g1
  g2 := g2
  g3 := cap
  g4 := if k == 5 then cap else []
  g5 := if k == 4 then cap else []
  g6 := if k == 3 then cap else []
  g7 := if k == 2 then cap else []
  g8 := if k == 1 then cap else []
  g9 := plat
  g10 := port

/-- Try one capability alternative followed by the pattern tail. -/
def tryCap (k : Nat) (g0 g1 g2 r6 : List Char) : Option (RowMatch × List Char) :=
  match matchCap k r6 with
  | none => none
  | some (cap, r7) =>
    match matchTailIos r7 with
    | none => none
    | some (plat, port, rest) => some (buildRow g0 g1 g2 cap k plat port, rest)

/-- The alternation of the capability group: Python tries the five-token
    alternative first, then four, three, two, one; a later alternative is
    reached both when the earlier alternative fails and when it matches
    but the pattern tail then fails. -/
def tryAlts (g0 g1 g2 r6 : List Char) : Option (RowMatch × List Char) :=
  match tryCap 5 g0 g1 g2 r6 with
  | some v => some v
  | none =>
    match tryCap 4 g0 g1 g2 r6 with
    | some v => some v
    | none =>
      match tryCap 3 g0 g1 g2 r6 with
      | some v => some v
      | none =>
        match tryCap 2 g0 g1 g2 r6 with
        | some v => some v
        | none => tryCap 1 g0 g1 g2 r6

/-- One attempt of the whole IOS row pattern at the head of the input.
    All stages before the alternation pair a greedy class-plus with a
    complementary follower, so they are deterministic. -/
def matchRow (cs : List Char) : Option (RowMatch × List Char) :=
  match matchNSPlus cs with
  | none => none
  | some (g0, r1) =>
    match matchSPlus r1 with
    | none => none
    | some (_, r2) =>
      match matchLocal r2 with
      | none => none
      | some (g1, r3) =>
        match matchSPlus r3 with
        | none => none
        | some (_, r4) =>
          match matchNSPlus r4 with
          | none => none
          | some (g2, r5) =>
            match matchSPlus r5 with
            | none => none
            | some (_, r6) => tryAlts g0 g1 g2 r6

/-- Scanning loop of re.findall: attempt a match at every position, left
    to right; on success continue after the match (every match consumes
    at least one character), on failure advance one character.  The fuel
    starts at the input length, which the loop never exhausts. -/
def findAllGo : Nat → List Char → List RowMatch
  | 0, _ => []
  | _ + 1, [] => []
  | fuel + 1, c :: rest =>
    match matchRow (c :: rest) with
    | some (t, remaining) => t :: findAllGo fuel remaining
    | none => findAllGo fuel rest

/-- re.findall of the IOS row pattern over an input. -/
def iosFindAll (cs : List Char) : List RowMatch :=
  findAllGo cs.length cs

/-- Python exceptions that the embedded code can raise. -/
inductive PyErr where
  | keyError
  | typeError
  | indexError
  | connError
  deriving DecidableEq, Repr

/-- Structured (JSON-like) values carried by the vendor APIs. -/
inductive JVal where
  | str (s : String)
  | num (n : Int)
  | bool (b : Bool)
  | null
  | arr (xs : List JVal)
  | obj (fields : List (String × JVal))

/-- Python subscript v[k] with a string key: succeeds only on a mapping
    that has the key; KeyError on a mapping without it, TypeError on any
    other value. -/
def pySubscript : JVal → String → Except PyErr JVal
  | JVal.obj fields, k =>
    match fields.lookup k with
    | some v => Except.ok v
    | none => Except.error PyErr.keyError
  | _, _ => Except.error PyErr.typeError

/-- Python iteration over a value: a list yields its elements, a mapping
    yields its keys, a string yields its one-character substrings, and
    anything else raises TypeError. -/
def pyIter : JVal → Except PyErr (List JVal)
  | JVal.arr xs => Except.ok xs
  | JVal.obj fields => Except.ok (fields.map (fun p => JVal.str p.1))
  | JVal.str s => Except.ok (s.data.map (fun c => JVal.str (String.mk [c])))
  | _ => Except.error PyErr.typeError

/-- The normalized record built by all three extractors; the values are
    passed through verbatim from the raw response. -/
structure NeighborRecord where
  neighbor_interface : JVal
  local_interface : JVal
  neighbor : JVal

/-- Value of v[k] when the subscript succeeds (used only to state
    theorems about runs in which every subscript succeeds). -/
def jgetD (e : JVal) (k : String) : JVal :=
  match pySubscript e k with
  | Except.ok v => v
  | Except.error _ => JVal.null

/-- The record nxos_cdp_filter builds from one ROW entry. -/
def nxRecordOf (e : JVal) : NeighborRecord :=
  ⟨jgetD e "port_id", jgetD e "intf_id", jgetD e "device_id"⟩

/-- The record eos_lldp_filter builds from one lldpNeighbors entry. -/
def eosRecordOf (e : JVal) : NeighborRecord :=
  ⟨jgetD e "neighborPort", jgetD e "port", jgetD e "neighborDevice"⟩

/-- The record ios_cdp_filter builds from one regex tuple: fields 10, 1
    and 0 of the capture tuple. -/
def iosRecordOf (m : RowMatch) : NeighborRecord :=
  ⟨JVal.str (String.mk m.g10), JVal.str (String.mk m.g1), JVal.str (String.mk m.g0)⟩

/-- The record list produced from the text after the header marker:
    re.findall followed by the per-tuple dictionary build. -/
def iosParseRel (rel : List Char) : List NeighborRecord :=
  (iosFindAll rel).map iosRecordOf

/-- One HTTP response of the NX-API adapter (switches.py, NxSwitch.nx_cdp):
    the ok flag, status line data and the parsed JSON body. -/
structure NxResponse where
  ok : Bool
  status_code : Nat
  reason : String
  content : String
  body : JVal

/-- Outcome of one nxos_cdp_filter call: how many times the adapter fetch
    operation ran, the returned value or the propagated exception, and the
    printed diagnostics. -/
structure NxResult where
  calls : Nat
  output : Except PyErr (Option (List NeighborRecord))
  printed : List String

/-- The failure diagnostic printed by nxos_cdp_filter. -/
def nxMsg (sc : Nat) (reason content : String) : String :=
  "The request failed! status_code: " ++ toString sc ++
  "\nreason: " ++ reason ++ "\ncontent: " ++ content

/-- The body of the nxos per-entry loop (neighbor_info.py lines 66-72):
    three subscripts, any of which can raise. -/
def nxEntryRec (n : JVal) : Except PyErr NeighborRecord := do
  let p ← pySubscript n "port_id"
  let l ← pySubscript n "intf_id"
  let dev ← pySubscript n "device_id"
  Except.ok (NeighborRecord.mk p l dev)

/-- Nested-path traversal and per-entry dictionary build of
    nxos_cdp_filter (neighbor_info.py lines 62-74); every subscript can
    raise, and nothing catches. -/
def nxCore (body : JVal) : Except PyErr (List NeighborRecord) := do
  let a ← pySubscript body "result"
  let b ← pySubscript a "body"
  let c ← pySubscript b "TABLE_cdp_neighbor_brief_info"
  let d ← pySubscript c "ROW_cdp_neighbor_brief_info"
  let items ← pyIter d
  items.mapM nxEntryRec

/-- nxos_cdp_filter (neighbor_info.py lines 44-79).  The adapter fetch is
    a function of the call index: the code calls nx_cdp() at line 59 and,
    when the response is ok, again at line 61, and parses the body of the
    second response.  There is no exception handler in this function. -/
def nxos_cdp_filter (fetch : Nat → NxResponse) : NxResult :=
  if (fetch 0).ok then
    match nxCore (fetch 1).body with
    | Except.ok l => ⟨2, Except.ok (some l), []⟩
    | Except.error e => ⟨2, Except.error e, []⟩
  else
    ⟨1, Except.ok none,
      [nxMsg (fetch 0).status_code (fetch 0).reason (fetch 0).content]⟩

/-- Containment of sep as a contiguous run, via List.isPrefixOf. -/
def hasInfixL (sep : List Char) : List Char → Bool
  | [] => sep.isEmpty
  | c :: rest => sep.isPrefixOf (c :: rest) || hasInfixL sep rest

/-- Python str.split(sep): cut at each leftmost non-overlapping occurrence
    of sep.  Fuel starts at the input length and cannot run out because
    sep is non-empty. -/
def pySplitGo (sep : List Char) : Nat → List Char → List Char → List (List Char)
  | _, acc, [] => [acc.reverse]
  | 0, acc, s => [acc.reverse ++ s]
  | fuel + 1, acc, c :: rest =>
    if sep.isPrefixOf (c :: rest) then
      acc.reverse :: pySplitGo sep fuel [] ((c :: rest).drop sep.length)
    else
      pySplitGo sep fuel (c :: acc) rest

/-- Python str.split(sep) on a whole string. -/
def pySplit (sep s : List Char) : List (List Char) :=
  pySplitGo sep s.length [] s

/-- The header marker ios_cdp_filter splits on (neighbor_info.py line 102). -/
def iosMarker : List Char := "Port ID\n".data

/-- The diagnostic printed by the ios_cdp_filter exception handler. -/
def iosMsg (device : String) : String :=
  "Couldn" ++ "\x27" ++ "t login into " ++ device

/-- Outcome of one ios_cdp_filter call: the returned value (None on the
    exception path) and the printed diagnostics. -/
structure IosResult where
  output : Option (List NeighborRecord)
  printed : List String

/-- ios_cdp_filter (neighbor_info.py lines 82-119).  conn is none when
    connecting or fetching raises (caught by the bare except); otherwise
    it carries the raw CLI text.  Indexing element 1 of the split raises
    IndexError when the marker is absent, which the same except catches. -/
def ios_cdp_filter (device : String) (conn : Option String) : IosResult :=
  match conn with
  | none => ⟨none, [iosMsg device]⟩
  | some cdp_data =>
    match (pySplit iosMarker cdp_data.data).get? 1 with
    | none => ⟨none, [iosMsg device]⟩
    | some rel => ⟨some (iosParseRel rel), []⟩

/-- The diagnostic printed by the eos_lldp_filter exception handler. -/
def eosMsg (device : String) : String :=
  "Couldn" ++ "\x27" ++ "t login into: " ++ device

/-- The body of the eos per-entry loop (neighbor_info.py lines 140-147). -/
def eosEntryRec (n : JVal) : Except PyErr NeighborRecord := do
  let p ← pySubscript n "neighborPort"
  let l ← pySubscript n "port"
  let d ← pySubscript n "neighborDevice"
  Except.ok (NeighborRecord.mk p l d)

/-- Traversal of eos_lldp_filter inside its try block (neighbor_info.py
    lines 136-149): element 0 of the result list, then the nested keys,
    then the per-entry dictionary build. -/
def eosCore (conn : Option (List JVal)) : Except PyErr (List NeighborRecord) := do
  let rs ← match conn with
    | none => Except.error PyErr.connError
    | some rs => Except.ok rs
  let first ← match rs with
    | [] => Except.error PyErr.indexError
    | x :: _ => Except.ok x
  let res ← pySubscript first "result"
  let ns ← pySubscript res "lldpNeighbors"
  let items ← pyIter ns
  items.mapM eosEntryRec

/-- Outcome of one eos_lldp_filter call. -/
structure EosResult where
  output : Option (List NeighborRecord)
  printed : List String

/-- eos_lldp_filter (neighbor_info.py lines 122-152): everything runs
    inside try, so any raise yields None plus the diagnostic. -/
def eos_lldp_filter (device : String) (conn : Option (List JVal)) : EosResult :=
  match eosCore conn with
  | Except.ok l => ⟨some l, []⟩
  | Except.error _ => ⟨none, [eosMsg device]⟩

/-- The raw source reachable for one inventory device, selected by its os
    tag; unknown covers os tags outside nxos/ios/eos, which main skips. -/
inductive DeviceConn where
  | nx (fetch : Nat → NxResponse)
  | iosd (conn : Option String)
  | eosd (conn : Option (List JVal))
  | unknown

/-- One row of inventory.csv together with what its device returns. -/
structure InvDevice where
  hostname : String
  ip : String
  conn : DeviceConn

/-- Dispatch of the main loop body: nxos and ios filters receive the ip,
    the eos filter receives the hostname; none means the os tag matched
    no branch and no entry is stored. -/
def runDevice (d : InvDevice) :
    Option (Except PyErr (Option (List NeighborRecord)) × List String) :=
  match d.conn with
  | DeviceConn.nx fetch =>
    let r := nxos_cdp_filter fetch
    some (r.output, r.printed)
  | DeviceConn.iosd c =>
    let r := ios_cdp_filter d.ip c
    some (Except.ok r.output, r.printed)
  | DeviceConn.eosd c =>
    let r := eos_lldp_filter d.hostname c
    some (Except.ok r.output, r.printed)
  | DeviceConn.unknown => none

/-- The inventory loop of main (neighbor_info.py lines 26-34): one entry
    per recognized device, stored under its hostname in insertion order
    (hostnames are unique keys); an uncaught exception from a filter
    aborts the whole loop and no mapping is produced. -/
def mainLoop :
    List InvDevice →
    Except PyErr (List (String × Option (List NeighborRecord)) × List String)
  | [] => Except.ok ([], [])
  | d :: rest =>
    match runDevice d with
    | none => mainLoop rest
    | some (Except.error e, _) => Except.error e
    | some (Except.ok v, prints) =>
      match mainLoop rest with
      | Except.error e => Except.error e
      | Except.ok (m, ps) => Except.ok ((d.hostname, v) :: m, prints ++ ps)

/-- All characters outside the regex whitespace class. -/
abbrev allNS (l : List Char) : Prop := ∀ c ∈ l, pySpace c = false

/-- All characters inside the regex whitespace class. -/
abbrev allS (l : List Char) : Prop := ∀ c ∈ l, pySpace c = true

/-- The capability column as it appears in the text: the single-letter
    codes joined by single spaces. -/
def renderCaps : List Char → List Char
  | [] => []
  | [c] => [c]
  | c :: c2 :: rest => c :: ' ' :: renderCaps (c2 :: rest)

/-- One logical table row as laid out by show cdp neighbor: device id,
    separator, the two local-interface tokens, separator, holdtime,
    separator, capability codes, separator, platform, separator, port id,
    then the rest of the input. -/
def renderRow (device sep1 loc1 loc2 sep2 hold sep3 caps sepCP plat sepPP port suffix :
    List Char) : List Char :=
  device ++ (sep1 ++ (loc1 ++ (' ' :: (loc2 ++ (sep2 ++ (hold ++ (sep3 ++
    (renderCaps caps ++ (sepCP ++ (plat ++ (sepPP ++ (port ++ suffix))))))))))))

/-- A body whose nested CDP path ends in an empty entry sequence. -/
def nxEmptyBody : JVal :=
  JVal.obj [("result", JVal.obj [("body", JVal.obj
    [("TABLE_cdp_neighbor_brief_info", JVal.obj
      [("ROW_cdp_neighbor_brief_info", JVal.arr [])])])])]

/-- A success response with the nested path present and zero neighbors. -/
def nxEmptyResp : NxResponse :=
  ⟨true, 200, "OK", "zero neighbors", nxEmptyBody⟩

/-- A success response whose body lacks the expected nested path. -/
def nxBadPathResp : NxResponse :=
  ⟨true, 200, "OK", "malformed", JVal.obj [("result", JVal.obj [])]⟩

/-- A non-OK response. -/
def nxFailResp : NxResponse :=
  ⟨false, 401, "Unauthorized", "denied", JVal.null⟩

/-- A body with the nested path present, for a given entry sequence. -/
def nxBodyOf (entries : List JVal) : JVal :=
  JVal.obj [("result", JVal.obj [("body", JVal.obj
    [("TABLE_cdp_neighbor_brief_info", JVal.obj
      [("ROW_cdp_neighbor_brief_info", JVal.arr entries)])])])]

/-- A success response carrying a given entry sequence at the nested path. -/
def nxRespOf (entries : List JVal) : NxResponse :=
  ⟨true, 200, "OK", "", nxBodyOf entries⟩

/-- An eos result document carrying a given lldpNeighbors sequence. -/
def eosDocOf (entries : List JVal) : JVal :=
  JVal.obj [("result", JVal.obj [("lldpNeighbors", JVal.arr entries)])]

/-- A valid show cdp neighbor header with no rows after the marker. -/
def iosEmptyText : String :=
  "Capability Codes: R - Router, S - Switch\n\nDevice ID        Local Intrfce     Holdtme    Capability  Platform  Port ID\n"

/-- One nxos ROW entry with the three expected keys. -/
def nxEntry (p l d : String) : JVal :=
  JVal.obj [("port_id", JVal.str p), ("intf_id", JVal.str l), ("device_id", JVal.str d)]

/-- One eos lldpNeighbors entry with the three expected keys. -/
def eosEntry (p l d : String) : JVal :=
  JVal.obj [("neighborPort", JVal.str p), ("port", JVal.str l), ("neighborDevice", JVal.str d)]

/-! ## Helper lemmas about the row matcher -/

theorem spanNS_append (a b : List Char) (ha : allNS a)
    (hb : b = [] ∨ ∃ d bs, b = d :: bs ∧ pySpace d = true) :
    spanNS (a ++ b) = (a, b) := by
  induction a with
  | nil =>
    rcases hb with rfl | ⟨d, bs, rfl, hd⟩
    · rfl
    · simp [spanNS, hd]
  | cons c as ih =>
    have hc : pySpace c = false := ha c (by simp)
    have ih' := ih (fun x hx => ha x (by simp [hx]))
    simp [spanNS, hc, ih']

theorem spanS_append (a b : List Char) (ha : allS a)
    (hb : b = [] ∨ ∃ d bs, b = d :: bs ∧ pySpace d = false) :
    spanS (a ++ b) = (a, b) := by
  induction a with
  | nil =>
    rcases hb with rfl | ⟨d, bs, rfl, hd⟩
    · rfl
    · simp [spanS, hd]
  | cons c as ih =>
    have hc : pySpace c = true := ha c (by simp)
    have ih' := ih (fun x hx => ha x (by simp [hx]))
    simp [spanS, hc, ih']

theorem matchNSPlus_append (a b : List Char) (hne : a ≠ []) (ha : allNS a)
    (hb : b = [] ∨ ∃ d bs, b = d :: bs ∧ pySpace d = true) :
    matchNSPlus (a ++ b) = some (a, b) := by
  unfold matchNSPlus
  rw [spanNS_append a b ha hb]
  simp [hne]

theorem matchSPlus_append (a b : List Char) (hne : a ≠ []) (ha : allS a)
    (hb : b = [] ∨ ∃ d bs, b = d :: bs ∧ pySpace d = false) :
    matchSPlus (a ++ b) = some (a, b) := by
  unfold matchSPlus
  rw [spanS_append a b ha hb]
  simp [hne]

theorem head_space (a b : List Char) (hne : a ≠ []) (ha : allS a) :
    a ++ b = [] ∨ ∃ d bs, a ++ b = d :: bs ∧ pySpace d = true := by
  cases a with
  | nil => exact absurd rfl hne
  | cons c as => exact Or.inr ⟨c, as ++ b, by simp, ha c (by simp)⟩

theorem head_nonspace (a b : List Char) (hne : a ≠ []) (ha : allNS a) :
    a ++ b = [] ∨ ∃ d bs, a ++ b = d :: bs ∧ pySpace d = false := by
  cases a with
  | nil => exact absurd rfl hne
  | cons c as => exact Or.inr ⟨c, as ++ b, by simp, ha c (by simp)⟩

theorem matchLocal_append (a b rest : List Char) (hane : a ≠ []) (haNS : allNS a)
    (hbne : b ≠ []) (hbNS : allNS b)
    (hrest : rest = [] ∨ ∃ d bs, rest = d :: bs ∧ pySpace d = true) :
    matchLocal (a ++ (' ' :: (b ++ rest))) = some (a ++ ' ' :: b, rest) := by
  have h1 := matchNSPlus_append a (' ' :: (b ++ rest)) hane haNS
    (Or.inr ⟨' ', b ++ rest, rfl, by decide⟩)
  have h2 := matchNSPlus_append b rest hbne hbNS hrest
  simp only [matchLocal, h1, h2]

theorem takeWhile_app (p : Char → Bool) (a b : List Char)
    (ha : ∀ c ∈ a, p c = true)
    (hb : b = [] ∨ ∃ d bs, b = d :: bs ∧ p d = false) :
    (a ++ b).takeWhile p = a ∧ (a ++ b).dropWhile p = b := by
  induction a with
  | nil =>
    rcases hb with rfl | ⟨d, bs, rfl, hd⟩
    · exact ⟨rfl, rfl⟩
    · simp [List.takeWhile, List.dropWhile, hd]
  | cons c as ih =>
    have hc : p c = true := ha c (by simp)
    have ih' := ih (fun x hx => ha x (by simp [hx]))
    simp [List.takeWhile, List.dropWhile, hc, ih'.1, ih'.2]

theorem matchTailIos_append (sep plat sep' port suffix : List Char)
    (hsep : sep ≠ []) (hsepS : allS sep)
    (hplat : plat ≠ []) (hplatNS : allNS plat)
    (hsep' : sep' ≠ []) (hsepS' : allS sep')
    (hport : port ≠ []) (hport0 : ∃ p0 ps, port = p0 :: ps ∧ pySpace p0 = false)
    (hportNL : '\n' ∉ port)
    (hsuf : suffix = [] ∨ ∃ s', suffix = '\n' :: s') :
    matchTailIos (sep ++ (plat ++ (sep' ++ (port ++ suffix)))) =
      some (plat, port, suffix) := by
  obtain ⟨p0, ps, hp, hp0⟩ := hport0
  have h1 := matchSPlus_append sep (plat ++ (sep' ++ (port ++ suffix))) hsep hsepS
    (head_nonspace plat _ hplat hplatNS)
  have h2 := matchNSPlus_append plat (sep' ++ (port ++ suffix)) hplat hplatNS
    (head_space sep' _ hsep' hsepS')
  have h3 := matchSPlus_append sep' (port ++ suffix) hsep' hsepS'
    (by subst hp; exact Or.inr ⟨p0, ps ++ suffix, by simp, hp0⟩)
  have hw := takeWhile_app (fun c => c != '\n') port suffix
    (fun c hc => by
      simp only [bne_iff_ne, ne_eq, decide_eq_true_eq]
      intro h; exact hportNL (h ▸ hc))
    (by
      rcases hsuf with rfl | ⟨s', rfl⟩
      · exact Or.inl rfl
      · exact Or.inr ⟨'\n', s', rfl, by simp⟩)
  simp only [matchTailIos, h1, h2, h3, hw.1, hw.2]

theorem matchCap_nil (j : Nat) : matchCap j [] = none := by
  match j with
  | 0 => rfl
  | 1 => rfl
  | _ + 2 => rfl

theorem matchCap_space_head (j : Nat) (c : Char) (r : List Char)
    (hc : pySpace c = true) : matchCap j (c :: r) = none := by
  match j with
  | 0 => rfl
  | 1 => simp [matchCap, hc]
  | k + 2 =>
    cases r with
    | nil => rfl
    | cons x xs => simp [matchCap, hc]

theorem renderCaps_ne_nil (caps : List Char) (h : caps ≠ []) :
    renderCaps caps ≠ [] := by
  cases caps with
  | nil => exact absurd rfl h
  | cons c rest =>
    cases rest with
    | nil => simp [renderCaps]
    | cons c2 rest2 => simp [renderCaps]

theorem renderCaps_head (caps : List Char) (b : List Char) (h : caps ≠ [])
    (hNS : allNS caps) :
    renderCaps caps ++ b = [] ∨
      ∃ d bs, renderCaps caps ++ b = d :: bs ∧ pySpace d = false := by
  cases caps with
  | nil => exact absurd rfl h
  | cons c rest =>
    have hc : pySpace c = false := hNS c (by simp)
    cases rest with
    | nil => exact Or.inr ⟨c, b, by simp [renderCaps], hc⟩
    | cons c2 rest2 =>
      exact Or.inr ⟨c, ' ' :: renderCaps (c2 :: rest2) ++ b, by simp [renderCaps], hc⟩

theorem matchCap_render (caps : List Char) (b : List Char) (h : caps ≠ [])
    (hNS : allNS caps) :
    matchCap caps.length (renderCaps caps ++ b) = some (renderCaps caps, b) := by
  induction caps with
  | nil => exact absurd rfl h
  | cons c rest ih =>
    have hc : pySpace c = false := hNS c (by simp)
    cases rest with
    | nil => simp [renderCaps, matchCap, hc]
    | cons c2 rest2 =>
      have ih' := ih (by simp) (fun x hx => hNS x (by simp [hx]))
      have hlen : (c :: c2 :: rest2).length = rest2.length + 2 := by simp
      rw [hlen]
      have hlen2 : (c2 :: rest2).length = rest2.length + 1 := by simp
      rw [hlen2] at ih'
      simp only [renderCaps, List.cons_append, matchCap, hc, Bool.false_eq_true,
        if_false, reduceIte, List.append_eq, ih']

theorem matchCap_overrun (caps : List Char) (j : Nat) (s0 s1 : Char) (b : List Char)
    (h : caps ≠ []) (hNS : allNS caps) (hj : caps.length < j)
    (hs0 : pySpace s0 = true) (hs1 : pySpace s1 = true) :
    matchCap j (renderCaps caps ++ s0 :: s1 :: b) = none := by
  induction caps generalizing j with
  | nil => exact absurd rfl h
  | cons c rest ih =>
    have hc : pySpace c = false := hNS c (by simp)
    cases rest with
    | nil =>
      obtain ⟨jj, rfl⟩ : ∃ jj, j = jj + 2 := ⟨j - 2, by simp at hj; omega⟩
      by_cases hsp : s0 = ' '
      · subst hsp
        have hinner : matchCap (jj + 1) (s1 :: b) = none := matchCap_space_head _ _ _ hs1
        simp [renderCaps, matchCap, hc, hinner]
      · simp [renderCaps, matchCap, hc, hsp]
    | cons c2 rest2 =>
      obtain ⟨jj, rfl⟩ : ∃ jj, j = jj + 2 := ⟨j - 2, by simp at hj; omega⟩
      have ih' := ih (by simp) (fun x hx => hNS x (by simp [hx]))
        (j := jj + 1) (by simp at hj ⊢; omega)
      simp only [renderCaps, List.cons_append, matchCap, hc, Bool.false_eq_true,
        if_false, reduceIte, List.append_eq, ih']

theorem tryCap_render (g0 g1 g2 caps sepCP plat sepPP port suffix : List Char)
    (hcaps : caps ≠ []) (hcapsNS : allNS caps)
    (hcp : sepCP ≠ []) (hcpS : allS sepCP)
    (hplat : plat ≠ []) (hplatNS : allNS plat)
    (hpp : sepPP ≠ []) (hppS : allS sepPP)
    (hport : port ≠ []) (hport0 : ∃ p0 ps, port = p0 :: ps ∧ pySpace p0 = false)
    (hportNL : '\n' ∉ port)
    (hsuf : suffix = [] ∨ ∃ s', suffix = '\n' :: s') :
    tryCap caps.length g0 g1 g2
        (renderCaps caps ++ (sepCP ++ (plat ++ (sepPP ++ (port ++ suffix))))) =
      some (buildRow g0 g1 g2 (renderCaps caps) caps.length plat port, suffix) := by
  have h1 := matchCap_render caps (sepCP ++ (plat ++ (sepPP ++ (port ++ suffix))))
    hcaps hcapsNS
  have h2 := matchTailIos_append sepCP plat sepPP port suffix hcp hcpS hplat hplatNS
    hpp hppS hport hport0 hportNL hsuf
  simp only [tryCap, h1, h2]

theorem tryCap_overrun (g0 g1 g2 caps sepCP rest : List Char) (j : Nat)
    (hcaps : caps ≠ []) (hcapsNS : allNS caps) (hj : caps.length < j)
    (hcp2 : 2 ≤ sepCP.length) (hcpS : allS sepCP) :
    tryCap j g0 g1 g2 (renderCaps caps ++ (sepCP ++ rest)) = none := by
  match sepCP, hcp2 with
  | s0 :: s1 :: cp', _ =>
    have hs0 : pySpace s0 = true := hcpS s0 (by simp)
    have hs1 : pySpace s1 = true := hcpS s1 (by simp)
    have h1 := matchCap_overrun caps j s0 s1 (cp' ++ rest) hcaps hcapsNS hj hs0 hs1
    simp only [List.cons_append] at h1 ⊢
    simp only [tryCap, h1]

theorem tryAlts_render (g0 g1 g2 caps sepCP plat sepPP port suffix : List Char)
    (hcaps : caps ≠ []) (hcaps5 : caps.length ≤ 5) (hcapsNS : allNS caps)
    (hcp2 : 2 ≤ sepCP.length) (hcpS : allS sepCP)
    (hplat : plat ≠ []) (hplatNS : allNS plat)
    (hpp : sepPP ≠ []) (hppS : allS sepPP)
    (hport : port ≠ []) (hport0 : ∃ p0 ps, port = p0 :: ps ∧ pySpace p0 = false)
    (hportNL : '\n' ∉ port)
    (hsuf : suffix = [] ∨ ∃ s', suffix = '\n' :: s') :
    tryAlts g0 g1 g2
        (renderCaps caps ++ (sepCP ++ (plat ++ (sepPP ++ (port ++ suffix))))) =
      some (buildRow g0 g1 g2 (renderCaps caps) caps.length plat port, suffix) := by
  have hcp : sepCP ≠ [] := by
    intro hx; rw [hx] at hcp2; simp at hcp2
  have hover : ∀ j, caps.length < j →
      tryCap j g0 g1 g2
        (renderCaps caps ++ (sepCP ++ (plat ++ (sepPP ++ (port ++ suffix))))) = none :=
    fun j hj => tryCap_overrun g0 g1 g2 caps sepCP _ j hcaps hcapsNS hj hcp2 hcpS
  have hk := tryCap_render g0 g1 g2 caps sepCP plat sepPP port suffix hcaps hcapsNS
    hcp hcpS hplat hplatNS hpp hppS hport hport0 hportNL hsuf
  have h1 : 1 ≤ caps.length := by
    cases caps with
    | nil => exact absurd rfl hcaps
    | cons c r => simp
  have h15 : caps.length = 1 ∨ caps.length = 2 ∨ caps.length = 3 ∨
      caps.length = 4 ∨ caps.length = 5 := by omega
  rcases h15 with h | h | h | h | h
  · rw [h] at hk ⊢
    simp only [tryAlts, hover 5 (by omega), hover 4 (by omega), hover 3 (by omega),
      hover 2 (by omega), hk]
  · rw [h] at hk ⊢
    simp only [tryAlts, hover 5 (by omega), hover 4 (by omega), hover 3 (by omega), hk]
  · rw [h] at hk ⊢
    simp only [tryAlts, hover 5 (by omega), hover 4 (by omega), hk]
  · rw [h] at hk ⊢
    simp only [tryAlts, hover 5 (by omega), hk]
  · rw [h] at hk ⊢
    simp only [tryAlts, hk]

set_option maxHeartbeats 1600000 in
theorem matchRow_renderRow
    (device sep1 loc1 loc2 sep2 hold sep3 caps sepCP plat sepPP port suffix : List Char)
    (hdev : device ≠ []) (hdevNS : allNS device)
    (hs1 : sep1 ≠ []) (hs1S : allS sep1)
    (hl1 : loc1 ≠ []) (hl1NS : allNS loc1)
    (hl2 : loc2 ≠ []) (hl2NS : allNS loc2)
    (hs2 : sep2 ≠ []) (hs2S : allS sep2)
    (hhold : hold ≠ []) (hholdNS : allNS hold)
    (hs3 : sep3 ≠ []) (hs3S : allS sep3)
    (hcaps : caps ≠ []) (hcaps5 : caps.length ≤ 5) (hcapsNS : allNS caps)
    (hcp2 : 2 ≤ sepCP.length) (hcpS : allS sepCP)
    (hplat : plat ≠ []) (hplatNS : allNS plat)
    (hpp : sepPP ≠ []) (hppS : allS sepPP)
    (hport : port ≠ []) (hport0 : ∃ p0 ps, port = p0 :: ps ∧ pySpace p0 = false)
    (hportNL : '\n' ∉ port)
    (hsuf : suffix = [] ∨ ∃ s', suffix = '\n' :: s') :
    matchRow (renderRow device sep1 loc1 loc2 sep2 hold sep3 caps sepCP plat sepPP
        port suffix) =
      some (buildRow device (loc1 ++ ' ' :: loc2) hold (renderCaps caps) caps.length
        plat port, suffix) := by
  have e1 := matchNSPlus_append device
    (sep1 ++ (loc1 ++ (' ' :: (loc2 ++ (sep2 ++ (hold ++ (sep3 ++ (renderCaps caps ++
      (sepCP ++ (plat ++ (sepPP ++ (port ++ suffix))))))))))))
    hdev hdevNS (head_space sep1 _ hs1 hs1S)
  have e2 := matchSPlus_append sep1
    (loc1 ++ (' ' :: (loc2 ++ (sep2 ++ (hold ++ (sep3 ++ (renderCaps caps ++
      (sepCP ++ (plat ++ (sepPP ++ (port ++ suffix)))))))))))
    hs1 hs1S (head_nonspace loc1 _ hl1 hl1NS)
  have e3 := matchLocal_append loc1 loc2
    (sep2 ++ (hold ++ (sep3 ++ (renderCaps caps ++
      (sepCP ++ (plat ++ (sepPP ++ (port ++ suffix))))))))
    hl1 hl1NS hl2 hl2NS (head_space sep2 _ hs2 hs2S)
  have e4 := matchSPlus_append sep2
    (hold ++ (sep3 ++ (renderCaps caps ++
      (sepCP ++ (plat ++ (sepPP ++ (port ++ suffix)))))))
    hs2 hs2S (head_nonspace hold _ hhold hholdNS)
  have e5 := matchNSPlus_append hold
    (sep3 ++ (renderCaps caps ++ (sepCP ++ (plat ++ (sepPP ++ (port ++ suffix))))))
    hhold hholdNS (head_space sep3 _ hs3 hs3S)
  have e6 := matchSPlus_append sep3
    (renderCaps caps ++ (sepCP ++ (plat ++ (sepPP ++ (port ++ suffix)))))
    hs3 hs3S (renderCaps_head caps _ hcaps hcapsNS)
  have e7 := tryAlts_render device (loc1 ++ ' ' :: loc2) hold caps sepCP plat sepPP
    port suffix hcaps hcaps5 hcapsNS hcp2 hcpS hplat hplatNS hpp hppS hport hport0
    hportNL hsuf
  simp only [renderRow, matchRow, e1, e2, e3, e4, e5, e6, e7]

theorem findAllGo_empty (fuel : Nat) : findAllGo fuel [] = [] := by
  cases fuel <;> rfl

theorem findAllGo_cons (fuel : Nat) (c : Char) (rest : List Char) :
    findAllGo (fuel + 1) (c :: rest) =
      match matchRow (c :: rest) with
      | some (t, remaining) => t :: findAllGo fuel remaining
      | none => findAllGo fuel rest := rfl

theorem iosFindAll_single (cs : List Char) (row : RowMatch)
    (h : matchRow cs = some (row, [])) (hne : cs ≠ []) : iosFindAll cs = [row] := by
  cases cs with
  | nil => exact absurd rfl hne
  | cons c rest =>
    show findAllGo (rest.length + 1) (c :: rest) = [row]
    rw [findAllGo_cons, h]
    show row :: findAllGo rest.length [] = [row]
    rw [findAllGo_empty]

theorem matchNSPlus_ne (cs p r : List Char) (h : matchNSPlus cs = some (p, r)) :
    p ≠ [] := by
  intro hp
  subst hp
  unfold matchNSPlus at h
  split at h
  · exact Option.noConfusion h
  · rename_i hne
    injection h with h'
    apply hne
    rw [h']

theorem matchLocal_ne (cs g r : List Char) (h : matchLocal cs = some (g, r)) :
    g ≠ [] := by
  unfold matchLocal at h
  split at h
  · exact Option.noConfusion h
  · split at h
    · split at h
      · exact Option.noConfusion h
      · injection h with h'
        have hg := congrArg Prod.fst h'
        simp at hg
        rw [← hg]
        simp
    · exact Option.noConfusion h

theorem tryCap_shape (k : Nat) (g0 g1 g2 r6 : List Char) (t : RowMatch)
    (rest : List Char) (h : tryCap k g0 g1 g2 r6 = some (t, rest)) :
    t.g0 = g0 ∧ t.g1 = g1 := by
  unfold tryCap at h
  split at h
  · exact Option.noConfusion h
  · split at h
    · exact Option.noConfusion h
    · injection h with h'
      have ht := congrArg Prod.fst h'
      simp at ht
      rw [← ht]
      exact ⟨rfl, rfl⟩

theorem tryAlts_shape (g0 g1 g2 r6 : List Char) (t : RowMatch) (rest : List Char)
    (h : tryAlts g0 g1 g2 r6 = some (t, rest)) : t.g0 = g0 ∧ t.g1 = g1 := by
  unfold tryAlts at h
  split at h
  · rename_i v heq
    injection h with h'
    subst h'
    exact tryCap_shape 5 g0 g1 g2 r6 t rest heq
  · split at h
    · rename_i v heq
      injection h with h'
      subst h'
      exact tryCap_shape 4 g0 g1 g2 r6 t rest heq
    · split at h
      · rename_i v heq
        injection h with h'
        subst h'
        exact tryCap_shape 3 g0 g1 g2 r6 t rest heq
      · split at h
        · rename_i v heq
          injection h with h'
          subst h'
          exact tryCap_shape 2 g0 g1 g2 r6 t rest heq
        · exact tryCap_shape 1 g0 g1 g2 r6 t rest h

theorem matchRow_shape (cs : List Char) (t : RowMatch) (rest : List Char)
    (h : matchRow cs = some (t, rest)) : t.g0 ≠ [] ∧ t.g1 ≠ [] := by
  unfold matchRow at h
  split at h
  · exact Option.noConfusion h
  · rename_i g0 r1 heq0
    split at h
    · exact Option.noConfusion h
    · rename_i w1 r2 heq1
      split at h
      · exact Option.noConfusion h
      · rename_i g1 r3 heq2
        split at h
        · exact Option.noConfusion h
        · rename_i w2 r4 heq3
          split at h
          · exact Option.noConfusion h
          · rename_i g2 r5 heq4
            split at h
            · exact Option.noConfusion h
            · rename_i w3 r6 heq5
              obtain ⟨h0, h1⟩ := tryAlts_shape g0 g1 g2 r6 t rest h
              rw [h0, h1]
              exact ⟨matchNSPlus_ne cs g0 r1 heq0, matchLocal_ne r2 g1 r3 heq2⟩

theorem findAllGo_zero (cs : List Char) : findAllGo 0 cs = [] := by
  cases cs <;> rfl

theorem findAllGo_mem (fuel : Nat) (cs : List Char) (t : RowMatch)
    (h : t ∈ findAllGo fuel cs) : ∃ cs' r, matchRow cs' = some (t, r) := by
  induction fuel generalizing cs with
  | zero =>
    rw [findAllGo_zero] at h
    cases h
  | succ n ih =>
    cases cs with
    | nil =>
      rw [findAllGo_empty] at h
      cases h
    | cons c rest =>
      rw [findAllGo_cons] at h
      cases hm : matchRow (c :: rest) with
      | none =>
        rw [hm] at h
        exact ih rest h
      | some pr =>
        obtain ⟨t', remaining⟩ := pr
        rw [hm] at h
        simp only [List.mem_cons] at h
        rcases h with rfl | h
        · exact ⟨c :: rest, remaining, hm⟩
        · exact ih remaining h

/-! ## Helper lemmas about the header split -/

theorem pre_mono (p q : List Char) : ∀ s : List Char,
    (p ++ q).isPrefixOf s = true → p.isPrefixOf s = true := by
  induction p with
  | nil => intro s _; cases s <;> rfl
  | cons a as ih =>
    intro s h
    cases s with
    | nil => simp [List.isPrefixOf] at h
    | cons b bs =>
      simp only [List.cons_append, List.isPrefixOf, Bool.and_eq_true] at h ⊢
      exact ⟨h.1, ih bs h.2⟩

theorem hasInfixL_mono (p q s : List Char) (h : hasInfixL p s = false) :
    hasInfixL (p ++ q) s = false := by
  induction s with
  | nil =>
    simp only [hasInfixL] at h ⊢
    cases p with
    | nil => simp at h
    | cons a as => simp
  | cons c rest ih =>
    simp only [hasInfixL, Bool.or_eq_false_iff] at h ⊢
    refine ⟨?_, ih h.2⟩
    cases hb : (p ++ q).isPrefixOf (c :: rest) with
    | false => rfl
    | true => rw [pre_mono p q (c :: rest) hb] at h; exact absurd h.1 (by simp)

theorem pySplitGo_no (sep : List Char) : ∀ (s : List Char) (fuel : Nat) (acc : List Char),
    hasInfixL sep s = false → s.length ≤ fuel →
    pySplitGo sep fuel acc s = [acc.reverse ++ s] := by
  intro s
  induction s with
  | nil =>
    intro fuel acc _ _
    cases fuel <;> simp [pySplitGo]
  | cons c rest ih =>
    intro fuel acc h hf
    obtain ⟨n, rfl⟩ : ∃ n, fuel = n + 1 := ⟨fuel - 1, by simp at hf; omega⟩
    simp only [hasInfixL, Bool.or_eq_false_iff] at h
    simp only [pySplitGo, h.1, Bool.false_eq_true, if_false]
    rw [ih n (c :: acc) h.2 (by simp at hf; omega)]
    simp

theorem pySplit_no (sep s : List Char) (h : hasInfixL sep s = false) :
    pySplit sep s = [s] := by
  unfold pySplit
  rw [pySplitGo_no sep s s.length [] h (Nat.le_refl _)]
  simp

/-! ## Helper lemmas about the structured extractors -/

theorem ok_bind {α β : Type} (a : α) (f : α → Except PyErr β) :
    (Except.ok a >>= f : Except PyErr β) = f a := rfl

theorem mapM_ok_of (f : JVal → Except PyErr NeighborRecord)
    (g : JVal → NeighborRecord) :
    ∀ entries : List JVal, (∀ e ∈ entries, f e = Except.ok (g e)) →
    entries.mapM f = Except.ok (entries.map g) := by
  intro entries h
  induction entries with
  | nil => rfl
  | cons a as ih =>
    have ha := h a (by simp)
    have ih' := ih (fun e he => h e (by simp [he]))
    simp only [List.mapM_cons, ha, ih', ok_bind, List.map_cons]
    rfl

theorem nxEntryRec_eq (e p l d : JVal)
    (hp : pySubscript e "port_id" = Except.ok p)
    (hl : pySubscript e "intf_id" = Except.ok l)
    (hd : pySubscript e "device_id" = Except.ok d) :
    nxEntryRec e = Except.ok (nxRecordOf e) := by
  have h1 : nxRecordOf e = NeighborRecord.mk p l d := by
    simp [nxRecordOf, jgetD, hp, hl, hd]
  rw [h1]
  simp only [nxEntryRec, hp, hl, hd, ok_bind]

theorem eosEntryRec_eq (e p l d : JVal)
    (hp : pySubscript e "neighborPort" = Except.ok p)
    (hl : pySubscript e "port" = Except.ok l)
    (hd : pySubscript e "neighborDevice" = Except.ok d) :
    eosEntryRec e = Except.ok (eosRecordOf e) := by
  have h1 : eosRecordOf e = NeighborRecord.mk p l d := by
    simp [eosRecordOf, jgetD, hp, hl, hd]
  rw [h1]
  simp only [eosEntryRec, hp, hl, hd, ok_bind]

theorem nxCore_arr (entries : List JVal) :
    nxCore (nxBodyOf entries) = entries.mapM nxEntryRec := rfl

theorem eosCore_doc (entries : List JVal) (more : List JVal) :
    eosCore (some (eosDocOf entries :: more)) = entries.mapM eosEntryRec := rfl

/-! ## Claim theorems -/

/-- Claim C3 (code bug): a response whose success flag is true but whose
    body lacks the nested path result/body/TABLE_cdp_neighbor_brief_info/
    ROW_cdp_neighbor_brief_info is NOT reported as a per-device failure:
    nxos_cdp_filter has no exception handler, the subscript raises
    KeyError, and the exception propagates through main, so the whole run
    aborts and the remaining devices produce no output at all.  This
    evaluates the embedded code at the failing input. -/
theorem C3_theorem :
    nxBadPathResp.ok = true ∧
    (nxos_cdp_filter (fun _ => nxBadPathResp)).output = Except.error PyErr.keyError ∧
    mainLoop [⟨"nx1", "10.0.0.1", DeviceConn.nx (fun _ => nxBadPathResp)⟩,
              ⟨"nx2", "10.0.0.2", DeviceConn.nx (fun _ => nxEmptyResp)⟩] =
      Except.error PyErr.keyError := ⟨rfl, rfl, rfl⟩

/-- Claim C4: for each of the three extractors, a structurally valid
    neighbor table with zero entries (success flag true with an empty
    sequence at the nested path; header marker present with no rows after
    it; result present with an empty lldpNeighbors sequence) yields an
    empty output sequence and not a failure. -/
theorem C4_theorem :
    (nxos_cdp_filter (fun _ => nxEmptyResp)).output = Except.ok (some []) ∧
    (ios_cdp_filter "10.0.0.3" (some iosEmptyText)).output = some [] ∧
    (ios_cdp_filter "10.0.0.3" (some iosEmptyText)).printed = [] ∧
    (eos_lldp_filter "sw1" (some [eosDocOf []])).output = some [] ∧
    (eos_lldp_filter "sw1" (some [eosDocOf []])).printed = [] ∧
    (nxos_cdp_filter (fun _ => nxEmptyResp)).printed = [] :=
  ⟨rfl, rfl, rfl, rfl, rfl, rfl⟩

/-- Claim C6: when the response's success flag is false the nxos extractor
    returns None (no records, no raise) and prints one diagnostic carrying
    the original status code, reason and content verbatim. -/
theorem C6_theorem (r : NxResponse) (h : r.ok = false) :
    nxos_cdp_filter (fun _ => r) =
      ⟨1, Except.ok none, [nxMsg r.status_code r.reason r.content]⟩ := by
  unfold nxos_cdp_filter
  simp [h]

/-- Witness for C6 at a concrete non-OK response. -/
theorem C6_witness :
    nxFailResp.ok = false ∧
    nxos_cdp_filter (fun _ => nxFailResp) =
      ⟨1, Except.ok none,
        ["The request failed! status_code: 401\nreason: Unauthorized\ncontent: denied"]⟩ :=
  ⟨rfl, by
    have h := C6_theorem nxFailResp rfl
    rw [h]
    rfl⟩

/-- Claim C9 (code bug): the nxos extraction path does not fetch exactly
    once per device; on an OK response it invokes the adapter fetch twice
    (neighbor_info.py lines 59 and 61) and parses the body of the second
    response, which is observable: two fetch streams that agree on call 0
    but differ on call 1 produce different outputs. -/
theorem C9_theorem (fetch : Nat → NxResponse) :
    ((fetch 0).ok = true → (nxos_cdp_filter fetch).calls = 2) ∧
    ((fetch 0).ok = false → (nxos_cdp_filter fetch).calls = 1) ∧
    (nxos_cdp_filter
        (fun i => if i = 0 then nxEmptyResp else nxRespOf [nxEntry "e" "m" "d"])).output ≠
      (nxos_cdp_filter (fun _ => nxEmptyResp)).output := by
  refine ⟨?_, ?_, ?_⟩
  · intro h
    unfold nxos_cdp_filter
    rw [if_pos h]
    cases hc : nxCore ((fetch 1).body) <;> rfl
  · intro h
    unfold nxos_cdp_filter
    rw [if_neg (by simp [h])]
  · have hL : (nxos_cdp_filter
        (fun i => if i = 0 then nxEmptyResp else nxRespOf [nxEntry "e" "m" "d"])).output =
        Except.ok (some [⟨JVal.str "e", JVal.str "m", JVal.str "d"⟩]) := rfl
    have hR : (nxos_cdp_filter (fun _ => nxEmptyResp)).output = Except.ok (some []) := rfl
    rw [hL, hR]
    simp

/-- Witness for C9: on a concrete OK response the fetch runs twice. -/
theorem C9_witness :
    nxEmptyResp.ok = true ∧ (nxos_cdp_filter (fun _ => nxEmptyResp)).calls = 2 :=
  ⟨rfl, (C9_theorem (fun _ => nxEmptyResp)).1 rfl⟩

/-- Claim C1 (counterexample): with a three-token capability field, a
    single-character platform token and single-space column separators,
    the greedy longest-match alternation swallows the platform token into
    the capability group: the row "dev Gi 0/1 150 R S I X Gig 0/1" (codes
    R S I, platform X, port id Gig 0/1) matches with capability group
    "R S I X", platform group "Gig" and port-id group "0/1", so the
    emitted record's fields are not correctly isolated. -/
theorem C1_counterexample :
    iosFindAll ("dev Gi 0/1 150 R S I X Gig 0/1".data) =
      [{ g0 := "dev".data, g1 := "Gi 0/1".data, g2 := "150".data,
         g3 := "R S I X".data, g4 := [], g5 := "R S I X".data, g6 := [], g7 := [],
         g8 := [], g9 := "Gig".data, g10 := "0/1".data }] ∧
    iosParseRel ("dev Gi 0/1 150 R S I X Gig 0/1".data) =
      [⟨JVal.str "0/1", JVal.str "Gi 0/1", JVal.str "dev"⟩] ∧
    ("R S I X" : String) ≠ "R S I" ∧ ("0/1" : String) ≠ "Gig 0/1" :=
  ⟨rfl, rfl, by decide, by decide⟩

/-- Claim C1 (amended): the row grammar tries the 5-token capability
    alternative before 4, 3, 2, 1, and for any table row whose capability
    field has 1, 3 or 5 single-letter tokens the row parses into a record
    with platform and remote-port-id correctly isolated from the
    capability group, PROVIDED at least two whitespace characters separate
    the capability group from the platform column (the counterexample
    shows the unrestricted original claim fails when a single space
    precedes a one-character platform token). -/
theorem C1_theorem
    (device loc1 loc2 hold caps plat port sep1 sep2 sep3 sepCP sepPP : List Char)
    (hdev : device ≠ []) (hdevNS : allNS device)
    (hs1 : sep1 ≠ []) (hs1S : allS sep1)
    (hl1 : loc1 ≠ []) (hl1NS : allNS loc1)
    (hl2 : loc2 ≠ []) (hl2NS : allNS loc2)
    (hs2 : sep2 ≠ []) (hs2S : allS sep2)
    (hhold : hold ≠ []) (hholdNS : allNS hold)
    (hs3 : sep3 ≠ []) (hs3S : allS sep3)
    (hk : caps.length = 1 ∨ caps.length = 3 ∨ caps.length = 5) (hcapsNS : allNS caps)
    (hcp2 : 2 ≤ sepCP.length) (hcpS : allS sepCP)
    (hplat : plat ≠ []) (hplatNS : allNS plat)
    (hpp : sepPP ≠ []) (hppS : allS sepPP)
    (hport : port ≠ []) (hport0 : ∃ p0 ps, port = p0 :: ps ∧ pySpace p0 = false)
    (hportNL : '\n' ∉ port) :
    iosFindAll (renderRow device sep1 loc1 loc2 sep2 hold sep3 caps sepCP plat
        sepPP port []) =
      [buildRow device (loc1 ++ ' ' :: loc2) hold (renderCaps caps) caps.length
        plat port] ∧
    iosParseRel (renderRow device sep1 loc1 loc2 sep2 hold sep3 caps sepCP plat
        sepPP port []) =
      [⟨JVal.str (String.mk port), JVal.str (String.mk (loc1 ++ ' ' :: loc2)),
        JVal.str (String.mk device)⟩] := by
  have hcaps : caps ≠ [] := by
    intro hx
    rw [hx] at hk
    simp at hk
  have hcaps5 : caps.length ≤ 5 := by omega
  have hm := matchRow_renderRow device sep1 loc1 loc2 sep2 hold sep3 caps sepCP
    plat sepPP port [] hdev hdevNS hs1 hs1S hl1 hl1NS hl2 hl2NS hs2 hs2S hhold
    hholdNS hs3 hs3S hcaps hcaps5 hcapsNS hcp2 hcpS hplat hplatNS hpp hppS hport
    hport0 hportNL (Or.inl rfl)
  have hne : renderRow device sep1 loc1 loc2 sep2 hold sep3 caps sepCP plat sepPP
      port [] ≠ [] := by
    unfold renderRow
    cases device with
    | nil => exact absurd rfl hdev
    | cons c cs => simp
  have hfa := iosFindAll_single _ _ hm hne
  refine ⟨hfa, ?_⟩
  unfold iosParseRel
  rw [hfa]
  rfl

/-- Witness for C1 at a concrete three-token row with a double-space
    separator before the platform column. -/
theorem C1_witness :
    iosFindAll (renderRow "dev".data [' '] "Gi".data "0/1".data [' '] "150".data
        [' '] ['R', 'S', 'I'] [' ', ' '] "WS-C2960".data [' '] "Gig 0/1".data []) =
      [buildRow "dev".data ("Gi".data ++ ' ' :: "0/1".data) "150".data
        (renderCaps ['R', 'S', 'I']) (['R', 'S', 'I'] : List Char).length
        "WS-C2960".data "Gig 0/1".data] ∧
    iosParseRel (renderRow "dev".data [' '] "Gi".data "0/1".data [' '] "150".data
        [' '] ['R', 'S', 'I'] [' ', ' '] "WS-C2960".data [' '] "Gig 0/1".data []) =
      [⟨JVal.str (String.mk "Gig 0/1".data),
        JVal.str (String.mk ("Gi".data ++ ' ' :: "0/1".data)),
        JVal.str (String.mk "dev".data)⟩] :=
  C1_theorem "dev".data "Gi".data "0/1".data "150".data ['R', 'S', 'I']
    "WS-C2960".data "Gig 0/1".data [' '] [' '] [' '] [' ', ' '] [' ']
    (by decide) (by decide) (by decide) (by decide) (by decide) (by decide)
    (by decide) (by decide) (by decide) (by decide) (by decide) (by decide)
    (by decide) (by decide) (by decide) (by decide) (by decide) (by decide)
    (by decide) (by decide) (by decide) (by decide) (by decide)
    ⟨'G', "ig 0/1".data, rfl, by decide⟩ (by decide)

/-- Claim C2: for any input text that does not contain the "Port ID"
    header marker, the ios extractor returns None (no records) and prints
    one diagnostic, and in the inventory loop only that device gets the
    null value; processing of the other devices in the batch continues
    and the run completes. -/
theorem C2_theorem (s : String) (hs : hasInfixL ("Port ID".data) s.data = false)
    (ip h1 h2 : String) :
    (ios_cdp_filter ip (some s)).output = none ∧
    (ios_cdp_filter ip (some s)).printed = [iosMsg ip] ∧
    mainLoop [⟨h1, ip, DeviceConn.iosd (some s)⟩,
              ⟨h2, "10.0.0.2", DeviceConn.nx (fun _ => nxEmptyResp)⟩] =
      Except.ok ([(h1, none), (h2, some [])], [iosMsg ip]) := by
  have hm : hasInfixL iosMarker s.data = false := by
    have hiq : iosMarker = "Port ID".data ++ ['\n'] := rfl
    rw [hiq]
    exact hasInfixL_mono _ _ _ hs
  have hsplit := pySplit_no iosMarker s.data hm
  have hout : ios_cdp_filter ip (some s) = ⟨none, [iosMsg ip]⟩ := by
    simp only [ios_cdp_filter, hsplit]
    rfl
  refine ⟨by rw [hout], by rw [hout], ?_⟩
  have hd1 : runDevice ⟨h1, ip, DeviceConn.iosd (some s)⟩ =
      some (Except.ok none, [iosMsg ip]) := by
    simp only [runDevice, hout]
  have hd2 : runDevice ⟨h2, "10.0.0.2", DeviceConn.nx (fun _ => nxEmptyResp)⟩ =
      some (Except.ok (some []), []) := rfl
  simp only [mainLoop, hd1, hd2]
  rfl

/-- Witness for C2 at a concrete error banner lacking the marker. -/
theorem C2_witness :
    (ios_cdp_filter "10.0.0.7" (some "% CDP is not enabled")).output = none ∧
    (ios_cdp_filter "10.0.0.7" (some "% CDP is not enabled")).printed =
      [iosMsg "10.0.0.7"] ∧
    mainLoop [⟨"edge1", "10.0.0.7", DeviceConn.iosd (some "% CDP is not enabled")⟩,
              ⟨"core1", "10.0.0.2", DeviceConn.nx (fun _ => nxEmptyResp)⟩] =
      Except.ok ([("edge1", none), ("core1", some [])], [iosMsg "10.0.0.7"]) :=
  C2_theorem "% CDP is not enabled" (by decide) "10.0.0.7" "edge1" "core1"

/-- Claim C8: a logical row whose device id overflows onto its own
    physical line (an embedded newline plus indentation between the
    device id and the remaining columns) still matches the row grammar
    and yields exactly the record of the unwrapped single-line row. -/
theorem C8_theorem
    (device loc1 loc2 hold caps plat port ind sep2 sep3 sepCP sepPP : List Char)
    (hdev : device ≠ []) (hdevNS : allNS device)
    (hind : allS ind)
    (hl1 : loc1 ≠ []) (hl1NS : allNS loc1)
    (hl2 : loc2 ≠ []) (hl2NS : allNS loc2)
    (hs2 : sep2 ≠ []) (hs2S : allS sep2)
    (hhold : hold ≠ []) (hholdNS : allNS hold)
    (hs3 : sep3 ≠ []) (hs3S : allS sep3)
    (hcaps : caps ≠ []) (hcaps5 : caps.length ≤ 5) (hcapsNS : allNS caps)
    (hcp2 : 2 ≤ sepCP.length) (hcpS : allS sepCP)
    (hplat : plat ≠ []) (hplatNS : allNS plat)
    (hpp : sepPP ≠ []) (hppS : allS sepPP)
    (hport : port ≠ []) (hport0 : ∃ p0 ps, port = p0 :: ps ∧ pySpace p0 = false)
    (hportNL : '\n' ∉ port) :
    iosParseRel (renderRow device ('\n' :: ind) loc1 loc2 sep2 hold sep3 caps
        sepCP plat sepPP port []) =
      iosParseRel (renderRow device [' '] loc1 loc2 sep2 hold sep3 caps sepCP
        plat sepPP port []) ∧
    iosParseRel (renderRow device ('\n' :: ind) loc1 loc2 sep2 hold sep3 caps
        sepCP plat sepPP port []) =
      [⟨JVal.str (String.mk port), JVal.str (String.mk (loc1 ++ ' ' :: loc2)),
        JVal.str (String.mk device)⟩] := by
  have hparse : ∀ sep1 : List Char, sep1 ≠ [] → allS sep1 →
      iosParseRel (renderRow device sep1 loc1 loc2 sep2 hold sep3 caps sepCP plat
        sepPP port []) =
      [⟨JVal.str (String.mk port), JVal.str (String.mk (loc1 ++ ' ' :: loc2)),
        JVal.str (String.mk device)⟩] := by
    intro sep1 hs1 hs1S
    have hm := matchRow_renderRow device sep1 loc1 loc2 sep2 hold sep3 caps sepCP
      plat sepPP port [] hdev hdevNS hs1 hs1S hl1 hl1NS hl2 hl2NS hs2 hs2S hhold
      hholdNS hs3 hs3S hcaps hcaps5 hcapsNS hcp2 hcpS hplat hplatNS hpp hppS hport
      hport0 hportNL (Or.inl rfl)
    have hne : renderRow device sep1 loc1 loc2 sep2 hold sep3 caps sepCP plat
        sepPP port [] ≠ [] := by
      unfold renderRow
      cases device with
      | nil => exact absurd rfl hdev
      | cons c cs => simp
    have hfa := iosFindAll_single _ _ hm hne
    unfold iosParseRel
    rw [hfa]
    rfl
  have hw := hparse ('\n' :: ind) (by simp)
    (fun c hc => by
      rcases List.mem_cons.mp hc with rfl | hc'
      · decide
      · exact hind c hc')
  have hu := hparse [' '] (by simp) (by decide)
  exact ⟨by rw [hw, hu], hw⟩

/-- Witness for C8 at a concrete wrapped row. -/
theorem C8_witness :
    iosParseRel (renderRow "longdevicename.example.com".data
        ('\n' :: "                 ".data) "Gig".data "0/1".data "  ".data
        "150".data "        ".data ['R', 'S', 'I'] "      ".data
        "WS-C2960".data "  ".data "Gig 1/2".data []) =
      iosParseRel (renderRow "longdevicename.example.com".data [' '] "Gig".data
        "0/1".data "  ".data "150".data "        ".data ['R', 'S', 'I']
        "      ".data "WS-C2960".data "  ".data "Gig 1/2".data []) ∧
    iosParseRel (renderRow "longdevicename.example.com".data
        ('\n' :: "                 ".data) "Gig".data "0/1".data "  ".data
        "150".data "        ".data ['R', 'S', 'I'] "      ".data
        "WS-C2960".data "  ".data "Gig 1/2".data []) =
      [⟨JVal.str (String.mk "Gig 1/2".data),
        JVal.str (String.mk ("Gig".data ++ ' ' :: "0/1".data)),
        JVal.str (String.mk "longdevicename.example.com".data)⟩] :=
  C8_theorem "longdevicename.example.com".data "Gig".data "0/1".data "150".data
    ['R', 'S', 'I'] "WS-C2960".data "Gig 1/2".data "                 ".data
    "  ".data "        ".data "      ".data "  ".data
    (by decide) (by decide) (by decide) (by decide) (by decide) (by decide)
    (by decide) (by decide) (by decide) (by decide) (by decide) (by decide)
    (by decide) (by decide) (by decide) (by decide) (by decide) (by decide)
    (by decide) (by decide) (by decide) (by decide) (by decide)
    ⟨'G', "ig 1/2".data, rfl, by decide⟩ (by decide)

/-- Claim C5: for every entry of a successful nxos response and every
    entry of a successful eos response, exactly one record is emitted, in
    source order, with the exact field mapping port_id to
    neighbor_interface, intf_id to local_interface, device_id to neighbor
    (nxos) and neighborPort to neighbor_interface, port to
    local_interface, neighborDevice to neighbor (eos), the values passed
    through verbatim. -/
theorem C5_theorem (nxEntries eosEntries : List JVal)
    (hnx : ∀ e ∈ nxEntries, ∃ p l d,
      pySubscript e "port_id" = Except.ok p ∧
      pySubscript e "intf_id" = Except.ok l ∧
      pySubscript e "device_id" = Except.ok d)
    (heos : ∀ e ∈ eosEntries, ∃ p l d,
      pySubscript e "neighborPort" = Except.ok p ∧
      pySubscript e "port" = Except.ok l ∧
      pySubscript e "neighborDevice" = Except.ok d) :
    (nxos_cdp_filter (fun _ => nxRespOf nxEntries)).output =
      Except.ok (some (nxEntries.map nxRecordOf)) ∧
    (eos_lldp_filter "sw1" (some [eosDocOf eosEntries])).output =
      some (eosEntries.map eosRecordOf) := by
  have hnx' : ∀ e ∈ nxEntries, nxEntryRec e = Except.ok (nxRecordOf e) := by
    intro e he
    obtain ⟨p, l, d, hp, hl, hd⟩ := hnx e he
    exact nxEntryRec_eq e p l d hp hl hd
  have heos' : ∀ e ∈ eosEntries, eosEntryRec e = Except.ok (eosRecordOf e) := by
    intro e he
    obtain ⟨p, l, d, hp, hl, hd⟩ := heos e he
    exact eosEntryRec_eq e p l d hp hl hd
  have h1 : nxCore (nxBodyOf nxEntries) = Except.ok (nxEntries.map nxRecordOf) := by
    rw [nxCore_arr]
    exact mapM_ok_of _ _ _ hnx'
  have h2 : eosCore (some [eosDocOf eosEntries]) =
      Except.ok (eosEntries.map eosRecordOf) := by
    rw [eosCore_doc]
    exact mapM_ok_of _ _ _ heos'
  constructor
  · have hfilter : nxos_cdp_filter (fun _ => nxRespOf nxEntries) =
        match nxCore (nxBodyOf nxEntries) with
        | Except.ok l => ⟨2, Except.ok (some l), []⟩
        | Except.error e => ⟨2, Except.error e, []⟩ := rfl
    rw [hfilter, h1]
  · have hfilter : eos_lldp_filter "sw1" (some [eosDocOf eosEntries]) =
        match eosCore (some [eosDocOf eosEntries]) with
        | Except.ok l => ⟨some l, []⟩
        | Except.error _ => ⟨none, [eosMsg "sw1"]⟩ := rfl
    rw [hfilter, h2]

/-- Witness for C5 at one concrete entry per extractor. -/
theorem C5_witness :
    (nxos_cdp_filter (fun _ => nxRespOf [nxEntry "Eth1/1" "mgmt0" "leaf1"])).output =
      Except.ok (some [⟨JVal.str "Eth1/1", JVal.str "mgmt0", JVal.str "leaf1"⟩]) ∧
    (eos_lldp_filter "sw1"
        (some [eosDocOf [eosEntry "Ethernet1" "Ethernet2" "spine1"]])).output =
      some [⟨JVal.str "Ethernet1", JVal.str "Ethernet2", JVal.str "spine1"⟩] := by
  have h := C5_theorem [nxEntry "Eth1/1" "mgmt0" "leaf1"]
    [eosEntry "Ethernet1" "Ethernet2" "spine1"]
    (by
      intro e he
      simp only [List.mem_singleton] at he
      subst he
      exact ⟨JVal.str "Eth1/1", JVal.str "mgmt0", JVal.str "leaf1", rfl, rfl, rfl⟩)
    (by
      intro e he
      simp only [List.mem_singleton] at he
      subst he
      exact ⟨JVal.str "Ethernet1", JVal.str "Ethernet2", JVal.str "spine1",
        rfl, rfl, rfl⟩)
  exact h

/-- Claim C7 (amended): every record emitted by the ios extractor has a
    non-empty neighbor field (the device id, from a one-or-more group) and
    a non-empty local_interface field (two tokens joined by a space); the
    neighbor_interface field, captured by a dot-star group, can be the
    empty string, as the counterexample shows, so the original three-field
    non-emptiness claim had to be weakened. -/
theorem C7_theorem (device : String) (conn : Option String)
    (recs : List NeighborRecord)
    (h : (ios_cdp_filter device conn).output = some recs) :
    ∀ rec ∈ recs,
      (∃ a : String, rec.neighbor = JVal.str a ∧ a ≠ "") ∧
      (∃ b : String, rec.local_interface = JVal.str b ∧ b ≠ "") := by
  intro rec hrec
  cases conn with
  | none => exact absurd h (by simp [ios_cdp_filter])
  | some s =>
    have h' : (match (pySplit iosMarker s.data).get? 1 with
        | none => (⟨none, [iosMsg device]⟩ : IosResult)
        | some rel => ⟨some (iosParseRel rel), []⟩).output = some recs := h
    cases hg : (pySplit iosMarker s.data).get? 1 with
    | none =>
      rw [hg] at h'
      exact absurd h' (by simp)
    | some rel =>
      rw [hg] at h'
      simp only [Option.some.injEq] at h'
      subst h'
      unfold iosParseRel at hrec
      obtain ⟨m, hm_mem, hm_eq⟩ := List.mem_map.mp hrec
      obtain ⟨cs', r, hmrow⟩ := findAllGo_mem _ _ _ hm_mem
      obtain ⟨h0, h1⟩ := matchRow_shape _ _ _ hmrow
      subst hm_eq
      refine ⟨⟨String.mk m.g0, rfl, ?_⟩, ⟨String.mk m.g1, rfl, ?_⟩⟩
      · intro hc
        exact h0 (by simpa using congrArg String.data hc)
      · intro hc
        exact h1 (by simpa using congrArg String.data hc)

/-- Witness for C7 on a concrete one-row table. -/
theorem C7_witness :
    (∃ a : String,
      (⟨JVal.str "p", JVal.str "Gi 0/1", JVal.str "x"⟩ : NeighborRecord).neighbor =
        JVal.str a ∧ a ≠ "") ∧
    (∃ b : String,
      (⟨JVal.str "p", JVal.str "Gi 0/1", JVal.str "x"⟩ :
        NeighborRecord).local_interface = JVal.str b ∧ b ≠ "") :=
  C7_theorem "10.0.0.5" (some "Port ID\nx Gi 0/1 10 R P1 p")
    [⟨JVal.str "p", JVal.str "Gi 0/1", JVal.str "x"⟩] rfl
    ⟨JVal.str "p", JVal.str "Gi 0/1", JVal.str "x"⟩ (by simp)

/-- Claim C7 (counterexample): the ios extractor can emit a record whose
    neighbor_interface is the empty string: when the port-id column is
    empty and trailing whitespace follows the platform token, the greedy
    whitespace group absorbs the line end and the dot-star captures the
    empty string. -/
theorem C7_counterexample :
    (ios_cdp_filter "10.0.0.9" (some "Port ID\ndev Gi 0/1 150 R Plat \n")).output =
      some [⟨JVal.str "", JVal.str "Gi 0/1", JVal.str "dev"⟩] := rfl

/-- Claim C10: on every extractor failure path (nxos non-OK response, ios
    exception, eos exception) the extractor returns None rather than an
    empty sequence, the orchestrator still stores that value under the
    hostname and continues, so a failed device appears in the mapping with
    a null value, distinguishable from a reachable device with zero
    neighbors, which maps to an empty sequence. -/
theorem C10_theorem (fetch : Nat → NxResponse) (hok : (fetch 0).ok = false)
    (ip dev2 s : String)
    (hs : hasInfixL ("Port ID".data) s.data = false) :
    (nxos_cdp_filter fetch).output = Except.ok none ∧
    (ios_cdp_filter ip none).output = none ∧
    (ios_cdp_filter ip (some s)).output = none ∧
    (eos_lldp_filter dev2 none).output = none ∧
    mainLoop [⟨"h1", "ip1", DeviceConn.nx fetch⟩,
              ⟨"h2", "ip2", DeviceConn.nx (fun _ => nxEmptyResp)⟩] =
      Except.ok ([("h1", none), ("h2", some [])],
        [nxMsg (fetch 0).status_code (fetch 0).reason (fetch 0).content]) ∧
    (none : Option (List NeighborRecord)) ≠ some [] := by
  have hnx : nxos_cdp_filter fetch =
      ⟨1, Except.ok none,
        [nxMsg (fetch 0).status_code (fetch 0).reason (fetch 0).content]⟩ := by
    unfold nxos_cdp_filter
    rw [if_neg (by simp [hok])]
  have hm : hasInfixL iosMarker s.data = false := by
    have hiq : iosMarker = "Port ID".data ++ ['\n'] := rfl
    rw [hiq]
    exact hasInfixL_mono _ _ _ hs
  have hios : (ios_cdp_filter ip (some s)).output = none := by
    simp only [ios_cdp_filter, pySplit_no iosMarker s.data hm]
    rfl
  refine ⟨by rw [hnx], rfl, hios, rfl, ?_, by simp⟩
  have hd1 : runDevice ⟨"h1", "ip1", DeviceConn.nx fetch⟩ =
      some (Except.ok none,
        [nxMsg (fetch 0).status_code (fetch 0).reason (fetch 0).content]) := by
    simp only [runDevice, hnx]
  have hd2 : runDevice ⟨"h2", "ip2", DeviceConn.nx (fun _ => nxEmptyResp)⟩ =
      some (Except.ok (some []), []) := rfl
  simp only [mainLoop, hd1, hd2]
  rfl

/-- Witness for C10 at a concrete non-OK response and a concrete
    marker-less text. -/
theorem C10_witness :
    (nxos_cdp_filter (fun _ => nxFailResp)).output = Except.ok none ∧
    (ios_cdp_filter "10.0.0.4" none).output = none ∧
    (ios_cdp_filter "10.0.0.4" (some "timed out")).output = none ∧
    (eos_lldp_filter "sw9" none).output = none ∧
    mainLoop [⟨"h1", "ip1", DeviceConn.nx (fun _ => nxFailResp)⟩,
              ⟨"h2", "ip2", DeviceConn.nx (fun _ => nxEmptyResp)⟩] =
      Except.ok ([("h1", none), ("h2", some [])],
        [nxMsg nxFailResp.status_code nxFailResp.reason nxFailResp.content]) ∧
    (none : Option (List NeighborRecord)) ≠ some [] :=
  C10_theorem (fun _ => nxFailResp) rfl "10.0.0.4" "sw9" "timed out" (by decide)
